import Mathlib

/-!
# Verification of the sci-scraper core

Shallow embedding of the row-extraction heuristic (`internal/scraper`,
function `ScrapeYear` and helper `isNumericShort`) and of the job
scheduler (`cmd/sci-scraper/main.go`), together with theorems settling
the specification's claims about them.

Strings are Lean `String`s; Go's `strings` helpers are modelled at the
level the scraper uses them (trimming, lower-casing, substring and
suffix tests over the character sequence).
-/

namespace SciScraper

/-- Scan of the haystack's suffixes: does some suffix start with the needle?
Models Go `strings.Contains` on character data. -/
def containsFrom (needle : List Char) : List Char → Bool
  | [] => needle.isEmpty
  | c :: rest => List.isPrefixOf needle (c :: rest) || containsFrom needle rest

/-- Go `strings.Contains s sub`. -/
def containsSub (s sub : String) : Bool :=
  containsFrom sub.data s.data

/-- Go `len(s)`: the UTF-8 byte length of a string. -/
def goLen (s : String) : Nat :=
  s.data.foldr (fun c n => c.utf8Size + n) 0

/-- Whitespace dropped from both ends of a character list. -/
def trimChars (l : List Char) : List Char :=
  List.rdropWhile (fun c => c.isWhitespace) (l.dropWhile (fun c => c.isWhitespace))

/-- Go `strings.TrimSpace`, modelled at the character level: whitespace is
dropped from both ends of the string. -/
def goTrim (s : String) : String :=
  String.mk (trimChars s.data)

/-- `isNumericShort` from the scraper: the trimmed string is non-empty, at
most 6 bytes long, and every rune is an ASCII digit. -/
def isNumericShort (s : String) : Bool :=
  let t := goTrim s
  if t = "" || 6 < goLen t then false
  else t.data.all (fun r => decide ('0' ≤ r) && decide (r ≤ '9'))

/-- The five column roles used by `ScrapeYear`'s header map. -/
inductive Role
  | date
  | cause
  | subject
  | summary
  | pdf
deriving DecidableEq, Repr

/-- The `headerMap` of `ScrapeYear`: role to zero-based column index. -/
structure HeaderMap where
  date : Option Nat
  cause : Option Nat
  subject : Option Nat
  summary : Option Nat
  pdf : Option Nat
deriving DecidableEq, Repr

def HeaderMap.empty : HeaderMap :=
  ⟨none, none, none, none, none⟩

def HeaderMap.get (m : HeaderMap) : Role → Option Nat
  | .date => m.date
  | .cause => m.cause
  | .subject => m.subject
  | .summary => m.summary
  | .pdf => m.pdf

def HeaderMap.set (m : HeaderMap) : Role → Nat → HeaderMap
  | .date, i => { m with date := some i }
  | .cause, i => { m with cause := some i }
  | .subject, i => { m with subject := some i }
  | .summary, i => { m with summary := some i }
  | .pdf, i => { m with pdf := some i }

/-- The header-cell `switch` of `ScrapeYear`: ordered substring rules over
the lower-cased cell text; the first matching rule wins, so a cell gets at
most one role. -/
def headerRole (lower : String) : Option Role :=
  if containsSub lower "date" then some .date
  else if containsSub lower "cause" || containsSub lower "case" || containsSub lower "title" then some .cause
  else if containsSub lower "subject" then some .subject
  else if containsSub lower "summary" then some .summary
  else if containsSub lower "view" || containsSub lower "pdf" then some .pdf
  else none

/-- One iteration of the `th` loop of `ScrapeYear`: a cell with non-empty
trimmed text sets `hasHeader` and assigns at most one role to its index. -/
def headerStep (acc : HeaderMap × Bool) (i : Nat) (text : String) : HeaderMap × Bool :=
  let t := goTrim text
  if t = "" then acc
  else
    match headerRole t.toLower with
    | some r => (acc.1.set r i, true)
    | none => (acc.1, true)

def buildHeaderMapAux (acc : HeaderMap × Bool) (i : Nat) : List String → HeaderMap × Bool
  | [] => acc
  | t :: rest => buildHeaderMapAux (headerStep acc i t) (i + 1) rest

/-- The header pass of `ScrapeYear` over the first row's `th` cell texts:
returns the header map and the `hasHeader` flag. -/
def buildHeaderMap (ths : List String) : HeaderMap × Bool :=
  buildHeaderMapAux (HeaderMap.empty, false) 0 ths

/-- `strings.TrimSpace(cols.Eq(i).Text())` over the row's `td` texts. -/
def cellText (cols : List String) (i : Nat) : String :=
  goTrim (cols.getD i "")

/-- `readBy` from `ScrapeYear`: a header-mapped index within bounds is read
absolutely; otherwise the positional argument is read if within bounds, and
the empty string results otherwise. -/
def readBy (hm : HeaderMap) (cols : List String) (key : Role) (pos : Nat) : String :=
  match hm.get key with
  | some idx =>
    if idx < cols.length then cellText cols idx
    else if pos < cols.length then cellText cols pos
    else ""
  | none =>
    if pos < cols.length then cellText cols pos
    else ""

/-- The serial-column detection of `ScrapeYear`: rows of at least 5 cells
whose first cell's trimmed text is a short numeric string shift positional
reads by one. -/
def rowShift (cols : List String) : Nat :=
  if 5 ≤ cols.length then
    if isNumericShort (goTrim (cols.headD "")) then 1 else 0
  else 0

/-- A base URL, as the scraper needs it for reference resolution: scheme,
host, and path of the fetched page. -/
structure URL where
  scheme : String
  host : String
  path : String
deriving DecidableEq, Repr

/-- A scheme character after the leading letter. Modelled from Go `net/url`
(standard library, outside this repository): schemes are an ASCII letter
followed by letters, digits, `+`, `-` or `.`, then a colon. -/
def isSchemeChar (c : Char) : Bool :=
  c.isAlpha || c.isDigit || c = '+' || c = '-' || c = '.'

def hasSchemeAux : List Char → Bool
  | [] => false
  | c :: rest => if c = ':' then true else isSchemeChar c && hasSchemeAux rest

/-- Whether a reference string is an absolute URL (`u.IsAbs()` after
`url.Parse`): it starts with a well-formed scheme. Modelled from Go
`net/url`. -/
def hasScheme (s : String) : Bool :=
  match s.data with
  | [] => false
  | c :: rest => c.isAlpha && hasSchemeAux rest

/-- Whether `url.Parse` fails on the string. Modelled from Go `net/url`:
parsing rejects ASCII control characters and a leading colon (missing
protocol scheme). -/
def parseFails (s : String) : Bool :=
  (match s.data with
    | ':' :: _ => true
    | _ => false)
    || s.data.any (fun c => c.toNat < 32 || c.toNat = 127)

/-- Characters of the path up to and including its last slash. -/
def upToLastSlash (l : List Char) : List Char :=
  (l.reverse.dropWhile (fun c => c ≠ '/')).reverse

/-- `base.ResolveReference(u).String()` for a relative reference. Modelled
from Go `net/url` restricted to path references: a rooted path replaces the
base path, a relative path is merged onto the base path's directory. -/
def resolveReference (base : URL) (ref : String) : String :=
  if ref.startsWith "/" then base.scheme ++ "://" ++ base.host ++ ref
  else if ref = "" then base.scheme ++ "://" ++ base.host ++ base.path
  else base.scheme ++ "://" ++ base.host ++ String.mk (upToLastSlash base.path.data) ++ ref

/-- The `resolve` closure of `ScrapeYear`: trim the href; empty gives the
empty string; a parse failure or an absolute URL gives the trimmed href
back; otherwise the reference is resolved against the base URL. -/
def resolve (base : URL) (href : String) : String :=
  let h := goTrim href
  if h = "" then ""
  else if parseFails h then h
  else if hasScheme h then h
  else resolveReference base h

/-- The anchor-href test of `ScrapeYear` (line 149): the trimmed,
lower-cased href ends with `.pdf`, or contains `view-pdf`, or contains
`/view-pdf/`. -/
def pdfHrefMatch (href : String) : Bool :=
  let lh := (goTrim href).toLower
  lh.endsWith ".pdf" || containsSub lh "view-pdf" || containsSub lh "/view-pdf/"

/-- The `EachWithBreak` anchor scan of `ScrapeYear`: anchors in document
order, `none` for an anchor without an href attribute; the first matching
href is resolved and the scan stops. -/
def findPDF (base : URL) : List (Option String) → String
  | [] => ""
  | none :: rest => findPDF base rest
  | some href :: rest =>
    if pdfHrefMatch href then resolve base href else findPDF base rest

/-- One `tr` of the located table: its `th` cell texts, its `td` cell
texts, and the hrefs of its anchors in document order (`none` when the
anchor has no href attribute). -/
structure Row where
  ths : List String
  tds : List String
  anchors : List (Option String)
deriving DecidableEq, Repr

/-- `Judgment` from the scraper: one row of the landmark judgments table. -/
structure Judgment where
  dateOfJudgment : String
  causeTitleCaseNo : String
  subject : String
  judgmentSummary : String
  pdfLink : String
deriving DecidableEq, Repr

/-- The four `readBy` calls and the anchor scan of `ScrapeYear`, producing
the five fields of a row's record. -/
def rowFields (hm : HeaderMap) (base : URL) (r : Row) : Judgment :=
  let cols := r.tds
  let shift := rowShift cols
  { dateOfJudgment := readBy hm cols .date (0 + shift)
    causeTitleCaseNo := readBy hm cols .cause (1 + shift)
    subject := readBy hm cols .subject (2 + shift)
    judgmentSummary := readBy hm cols .summary (3 + shift)
    pdfLink := findPDF base r.anchors }

/-- The retention test of `ScrapeYear` (line 157): at least one of the five
fields is non-empty. -/
def keepJudgment (j : Judgment) : Bool :=
  j.dateOfJudgment != "" || j.causeTitleCaseNo != "" || j.subject != ""
    || j.judgmentSummary != "" || j.pdfLink != ""

/-- The body of the row loop of `ScrapeYear` for a non-header row: rows
without a `td` cell are skipped, and the built record is appended only when
the retention test holds. -/
def extractRow (hm : HeaderMap) (base : URL) (r : Row) : Option Judgment :=
  if r.tds.length < 1 then none
  else
    let j := rowFields hm base r
    if keepJudgment j then some j else none

/-- The row loop of `ScrapeYear` (`Each` over `tr` with index): row 0 is
skipped when `hasHeader` holds; every other row goes through
`extractRow`. -/
def extractRowsFrom (hm : HeaderMap) (hasHeader : Bool) (base : URL) :
    Nat → List Row → List Judgment
  | _, [] => []
  | i, r :: rest =>
    if i = 0 && hasHeader then extractRowsFrom hm hasHeader base (i + 1) rest
    else
      match extractRow hm base r with
      | some j => j :: extractRowsFrom hm hasHeader base (i + 1) rest
      | none => extractRowsFrom hm hasHeader base (i + 1) rest

/-- Extraction over the located table: the header map is built from the
first row's `th` cells, then every row is processed. -/
def extractTable (base : URL) (rows : List Row) : List Judgment :=
  let hdr := buildHeaderMap ((rows.headD ⟨[], [], []⟩).ths)
  extractRowsFrom hdr.1 hdr.2 base 0 rows

/-- The parsed document as far as `ScrapeYear` inspects it: the base URL,
the table under `.landmark_judgment_summary` when present, and the first
`table` element when present. -/
structure Page where
  base : URL
  landmarkTable : Option (List Row)
  firstTable : Option (List Row)
deriving DecidableEq, Repr

/-- The table selection of `ScrapeYear`: the landmark-scoped table first,
the document's first table as fallback. -/
def locatedTable (p : Page) : Option (List Row) :=
  match p.landmarkTable with
  | some t => some t
  | none => p.firstTable

/-- The judgments extracted from a page: empty when no table exists. -/
def pageJudgments (p : Page) : List Judgment :=
  match locatedTable p with
  | some rows => extractTable p.base rows
  | none => []

/-- The environment's answer to the HTTP GET of `ScrapeYear`: a transport
error, or a response with a status code, status text, body, and the parsed
document when `goquery` parsing succeeds. -/
inductive FetchOutcome
  | netErr (msg : String)
  | response (status : Nat) (statusText body : String) (parsed : Option Page)
deriving DecidableEq, Repr

/-- The observable side effects of one `ScrapeYear` call, in order. -/
inductive Effect
  | httpGet (url : String)
  | mkdirAll (dir : String)
  | createFile (path : String)
  | writeRecords (path : String) (records : List Judgment)
deriving DecidableEq, Repr

/-- The page URL template of `ScrapeYear`, parameterized by the year. -/
def pageURLFor (year : Int) : String :=
  "https://www.sci.gov.in/landmark-judgment-summaries/?judgment_year=" ++ toString year

/-- `filepath.Join(outDir, fmt.Sprintf("sci_judgments_%d.json", year))`. -/
def outFilePath (outDir : String) (year : Int) : String :=
  outDir ++ "/sci_judgments_" ++ toString year ++ ".json"

/-- The records one `ScrapeYear` attempt extracts: empty unless the fetch
returns status 200 and the document parses. -/
def envJudgments (env : FetchOutcome) : List Judgment :=
  match env with
  | .netErr _ => []
  | .response status _ _ parsed =>
    if status = 200 then
      match parsed with
      | some page => pageJudgments page
      | none => []
    else []

/-- `ScrapeYear` as a function of the year, the output directory, the
environment's fetch outcome, and whether `os.MkdirAll` and `os.Create`
succeed; it returns the Go error (if any) and the trace of effects. -/
def scrapeYear (year : Int) (outDir : String) (env : FetchOutcome)
    (mkdirOk createOk : Bool) : Except String Unit × List Effect :=
  if year < 2016 ∨ 2025 < year then
    (Except.error "year out of supported range 2016..2025", [])
  else
    let url := pageURLFor year
    match env with
    | .netErr msg => (Except.error msg, [Effect.httpGet url])
    | .response status statusText body parsed =>
      if status ≠ 200 then
        (Except.error ("fetch failed: " ++ statusText ++ " - " ++ body), [Effect.httpGet url])
      else
        match parsed with
        | none => (Except.error "document parse failure", [Effect.httpGet url])
        | some page =>
          let judgments := pageJudgments page
          if judgments.length = 0 then
            (Except.error ("no judgments found on page " ++ url), [Effect.httpGet url])
          else if mkdirOk = false then
            (Except.error "mkdir failed", [Effect.httpGet url, Effect.mkdirAll outDir])
          else if createOk = false then
            (Except.error "create failed",
              [Effect.httpGet url, Effect.mkdirAll outDir, Effect.createFile (outFilePath outDir year)])
          else
            (Except.ok (),
              [Effect.httpGet url, Effect.mkdirAll outDir, Effect.createFile (outFilePath outDir year),
                Effect.writeRecords (outFilePath outDir year) judgments])

/-!
## The scheduler of `cmd/sci-scraper/main.go`

The per-job attempt loop of `worker`, and the sequential path taken when
the concurrency level is at most 1. Each attempt's success is a function
of the attempt number; the loop returns the number of attempts made, the
list of sleeps performed (one entry of `delay` seconds between consecutive
attempts), and whether the job succeeded.
-/

/-- The `for` loop of `worker`: `attempt` is the 1-based attempt counter
after its increment; the loop breaks on success, or gives the job up once
`attempt > retries` after a failure, and otherwise sleeps and retries. -/
def runJobGo (retries delay : Nat) (succeeds : Nat → Bool) (attempt : Nat)
    (sleeps : List Nat) : Nat × List Nat × Bool :=
  if succeeds attempt then (attempt, sleeps, true)
  else if retries < attempt then (attempt, sleeps, false)
  else runJobGo retries delay succeeds (attempt + 1) (sleeps ++ [delay])
termination_by retries + 1 - attempt
decreasing_by
  simp only [not_lt] at *
  omega

/-- One job's attempt loop, started at attempt 1 with no sleeps yet. -/
def runJob (retries delay : Nat) (succeeds : Nat → Bool) : Nat × List Nat × Bool :=
  runJobGo retries delay succeeds 1 []

/-- The sequential path of `main` (`concurrency ≤ 1`): one `ScrapeYear`
call per year in input order; a failure is logged and the loop continues.
`scrape` is the deterministic per-year outcome: `some records` when the
year's fetch-extract-write cycle succeeds, `none` when it fails. -/
def seqRun (scrape : Int → Option (List Judgment)) (years : List Int) :
    List (Int × Option (List Judgment)) :=
  years.map (fun y => (y, scrape y))

/-- One concurrent job's final outcome: the worker's attempt loop around
the deterministic per-year result. Every attempt of a job calls
`ScrapeYear` on the same year, so each attempt's success equals the
year's outcome. -/
def concJobResult (retries delay : Nat) (scrape : Int → Option (List Judgment))
    (y : Int) : Option (List Judgment) :=
  if (runJob retries delay (fun _ => (scrape y).isSome)).2.2 then scrape y else none

/-- The worker-pool path of `main` (`concurrency > 1`), observed per year:
every queued year is consumed by exactly one worker and jobs share no
state, so the per-year outcomes are the jobs' individual outcomes in input
order. -/
def concRun (retries delay : Nat) (scrape : Int → Option (List Judgment))
    (years : List Int) : List (Int × Option (List Judgment)) :=
  years.map (fun y => (y, concJobResult retries delay scrape y))

/-!
## Claim-side definitions

Definitions below follow the wording of the specification's claims, to be
compared against the source-derived definitions above.
-/

/-- The positional read of the claims' field-read rule: the fixed default
position plus the row's detected shift, or empty when out of bounds. -/
def specPosRead (cols : List String) (dflt : Nat) : String :=
  if dflt + rowShift cols < cols.length then cellText cols (dflt + rowShift cols) else ""

/-- Claim C1's field-read rule: a header-mapped index within the row's cell
count is read absolutely, with no serial-shift applied; otherwise the fixed
positional default plus the shift is read, or the field is empty. -/
def specRead (hm : HeaderMap) (cols : List String) (role : Role) (dflt : Nat) : String :=
  match hm.get role with
  | some idx =>
    if idx < cols.length then cellText cols idx
    else specPosRead cols dflt
  | none => specPosRead cols dflt

/-- Claim C4's anchor test: the trimmed, lower-cased href ends with `.pdf`
or contains `view-pdf`. -/
def specPdfTest (href : String) : Bool :=
  (goTrim href).toLower.endsWith ".pdf" || containsSub ((goTrim href).toLower) "view-pdf"

/-- Claim C4's selection: the first anchor in document order whose href
passes the test; anchors without an href attribute never match. -/
def specFirstPdfAnchor (anchors : List (Option String)) : Option String :=
  anchors.findSome? (fun a =>
    match a with
    | some href => if specPdfTest href then some href else none
    | none => none)

/-- Claim C10's wording of a header cell assigning a role: the cell's
trimmed text is non-empty and the ordered rule set maps its lower-cased
text to that role. -/
def specCellAssigns (t : String) (r : Role) : Bool :=
  (goTrim t != "") && (headerRole (goTrim t).toLower == some r)

/-- Claim C10's wording of the recorded index: the column index of the
last (highest-index) cell assigning the role, starting the count at `i`. -/
def specLastRoleIdx (r : Role) : Nat → List String → Option Nat
  | _, [] => none
  | i, t :: rest =>
    match specLastRoleIdx r (i + 1) rest with
    | some j => some j
    | none => if specCellAssigns t r then some i else none

/-!
## Helper lemmas
-/

theorem runJobGo_allFail (retries delay : Nat) (succeeds : Nat → Bool)
    (h : ∀ a, succeeds a = false) :
    ∀ (k attempt : Nat) (sleeps : List Nat), attempt + k = retries + 1 →
      runJobGo retries delay succeeds attempt sleeps
        = (retries + 1, sleeps ++ List.replicate k delay, false) := by
  intro k
  induction k with
  | zero =>
    intro attempt sleeps hk
    rw [runJobGo, h attempt]
    have hlt : retries < attempt := by omega
    simp only [Bool.false_eq_true, if_false, if_pos hlt, List.replicate_zero, List.append_nil]
    have : attempt = retries + 1 := by omega
    simp [this]
  | succ n ih =>
    intro attempt sleeps hk
    rw [runJobGo, h attempt]
    have hlt : ¬ retries < attempt := by omega
    simp only [Bool.false_eq_true, if_false, if_neg hlt]
    rw [ih (attempt + 1) (sleeps ++ [delay]) (by omega)]
    simp [List.replicate_succ]

theorem runJob_allFail (retries delay : Nat) (succeeds : Nat → Bool)
    (h : ∀ a, succeeds a = false) :
    runJob retries delay succeeds = (retries + 1, List.replicate retries delay, false) := by
  unfold runJob
  have := runJobGo_allFail retries delay succeeds h retries 1 [] (by omega)
  simpa using this

theorem runJob_firstSucceeds (retries delay : Nat) (succeeds : Nat → Bool)
    (h : succeeds 1 = true) :
    runJob retries delay succeeds = (1, [], true) := by
  unfold runJob
  rw [runJobGo, h]
  simp

theorem concJobResult_eq_scrape (retries delay : Nat)
    (scrape : Int → Option (List Judgment)) (y : Int) :
    concJobResult retries delay scrape y = scrape y := by
  unfold concJobResult
  cases hs : scrape y with
  | none =>
    rw [runJob_allFail retries delay _ (fun _ => by simp [hs])]
    simp [hs]
  | some recs =>
    rw [runJob_firstSucceeds retries delay _ (by simp [hs])]
    simp

/-!
## Claims about the scheduler
-/

/-- C3: in the concurrent worker path, a job whose every attempt fails
makes exactly `1 + retries` attempts, with one fixed-delay sleep between
consecutive attempts, and is then abandoned (its loop ends in failure,
affecting only this job's outcome). -/
theorem claim_C3_retry_exhaustion (retries delay : Nat) (succeeds : Nat → Bool)
    (h : ∀ a, succeeds a = false) :
    runJob retries delay succeeds = (1 + retries, List.replicate retries delay, false) := by
  rw [runJob_allFail retries delay succeeds h, Nat.add_comm]

/-- Witness for C3: with `retries = 2`, a job failing on every attempt
makes exactly 3 attempts, sleeping twice in between, and is abandoned. -/
theorem claim_C3_witness :
    runJob 2 5 (fun _ => false) = (1 + 2, List.replicate 2 5, false) :=
  claim_C3_retry_exhaustion 2 5 (fun _ => false) (fun _ => rfl)

/-- C5: the sequential path and the concurrent worker-pool path produce
behaviorally equivalent per-year outcomes — each year reaches the same
success-or-failure result with the same extraction result, for every
year list, retry count and retry delay. -/
theorem claim_C5_seq_conc_equivalent (retries delay : Nat)
    (scrape : Int → Option (List Judgment)) (years : List Int) :
    concRun retries delay scrape years = seqRun scrape years := by
  unfold concRun seqRun
  have : (fun y => (y, concJobResult retries delay scrape y))
      = fun y => (y, scrape y) := by
    funext y
    rw [concJobResult_eq_scrape]
  rw [this]

/-!
## Claims about `ScrapeYear`'s outer pipeline
-/

/-- C9: a year outside 2016..2025 makes `ScrapeYear` return an error
immediately, with no HTTP fetch and no file write; a year inside the
inclusive range proceeds to the fetch. -/
theorem claim_C9_year_range (year : Int) (outDir : String) (env : FetchOutcome)
    (mkOk crOk : Bool) :
    ((year < 2016 ∨ 2025 < year) →
      scrapeYear year outDir env mkOk crOk
        = (Except.error "year out of supported range 2016..2025", [])) ∧
    (2016 ≤ year → year ≤ 2025 →
      Effect.httpGet (pageURLFor year) ∈ (scrapeYear year outDir env mkOk crOk).2) := by
  constructor
  · intro h
    unfold scrapeYear
    rw [if_pos h]
  · intro h1 h2
    unfold scrapeYear
    rw [if_neg (by omega)]
    cases env with
    | netErr msg => simp
    | response status statusText body parsed =>
      by_cases hs : status = 200
      · simp only [hs]
        cases parsed with
        | none => simp
        | some page =>
          simp only
          by_cases hj : (pageJudgments page).length = 0
          · simp [hj]
          · cases mkOk <;> cases crOk <;> simp [hj]
      · simp [hs]

/-- Witness for C9: year 2015 is rejected with no effects, year 2020
reaches the fetch. -/
theorem claim_C9_witness :
    scrapeYear 2015 "out" (FetchOutcome.netErr "boom") true true
      = (Except.error "year out of supported range 2016..2025", []) ∧
    Effect.httpGet (pageURLFor 2020) ∈
      (scrapeYear 2020 "out" (FetchOutcome.netErr "boom") true true).2 :=
  ⟨(claim_C9_year_range 2015 "out" (FetchOutcome.netErr "boom") true true).1 (by decide),
   (claim_C9_year_range 2020 "out" (FetchOutcome.netErr "boom") true true).2 (by decide) (by decide)⟩

/-- C6: within a single attempt, either the complete, non-empty extracted
record set is written to the year's output file (and only with a fully
successful attempt), or no records are written; and when zero records are
extracted the attempt fails before any directory creation or file
creation or write occurs. -/
theorem claim_C6_no_partial_write (year : Int) (outDir : String) (env : FetchOutcome)
    (mkOk crOk : Bool) :
    (∀ p recs, Effect.writeRecords p recs ∈ (scrapeYear year outDir env mkOk crOk).2 →
        recs = envJudgments env ∧ recs ≠ [] ∧ p = outFilePath outDir year ∧
        (scrapeYear year outDir env mkOk crOk).1 = Except.ok ()) ∧
    (envJudgments env = [] →
      (scrapeYear year outDir env mkOk crOk).1 ≠ Except.ok () ∧
      (∀ d, Effect.mkdirAll d ∉ (scrapeYear year outDir env mkOk crOk).2) ∧
      (∀ p, Effect.createFile p ∉ (scrapeYear year outDir env mkOk crOk).2) ∧
      (∀ p recs, Effect.writeRecords p recs ∉ (scrapeYear year outDir env mkOk crOk).2)) := by
  by_cases hy : year < 2016 ∨ 2025 < year
  · unfold scrapeYear
    rw [if_pos hy]
    simp
  · unfold scrapeYear envJudgments
    rw [if_neg hy]
    cases env with
    | netErr msg => simp
    | response status statusText body parsed =>
      by_cases hs : status = 200
      · simp only [hs, if_pos rfl]
        cases parsed with
        | none => simp
        | some page =>
          simp only
          by_cases hj : (pageJudgments page).length = 0
          · have : pageJudgments page = [] := List.length_eq_zero.mp hj
            simp [hj, this]
          · have hne : pageJudgments page ≠ [] := by
              intro hnil
              exact hj (by simp [hnil])
            cases mkOk <;> cases crOk <;> simp [hj, hne] <;>
              intro p recs h1 h2 <;> simp [h1, h2]
      · simp [hs]

/-- Witness for C6: a successful attempt writes exactly the complete
extracted record set, and an attempt whose fetch fails extracts nothing
and performs no directory creation or write. -/
theorem claim_C6_witness :
    (Effect.writeRecords (outFilePath "out" 2016)
        (envJudgments (FetchOutcome.response 200 "OK" ""
          (some ⟨⟨"https", "h", "/p"⟩, none, some [⟨[], ["x"], []⟩]⟩)))
      ∈ (scrapeYear 2016 "out"
          (FetchOutcome.response 200 "OK" ""
            (some ⟨⟨"https", "h", "/p"⟩, none, some [⟨[], ["x"], []⟩]⟩)) true true).2 →
      envJudgments (FetchOutcome.response 200 "OK" ""
          (some ⟨⟨"https", "h", "/p"⟩, none, some [⟨[], ["x"], []⟩]⟩)) ≠ []) ∧
    (∀ p recs, Effect.writeRecords p recs ∉
      (scrapeYear 2016 "out" (FetchOutcome.netErr "boom") true true).2) :=
  ⟨fun hmem =>
    ((claim_C6_no_partial_write 2016 "out"
        (FetchOutcome.response 200 "OK" ""
          (some ⟨⟨"https", "h", "/p"⟩, none, some [⟨[], ["x"], []⟩]⟩)) true true).1
      _ _ hmem).2.1,
   ((claim_C6_no_partial_write 2016 "out" (FetchOutcome.netErr "boom") true true).2
      (by decide)).2.2.2⟩

/-!
## Claims about the row extractor
-/

/-- C1: each of the four text fields of a data row's record follows the
claimed read rule — a header-mapped index within the row's cell count is
read from that absolute index with no serial-shift; otherwise the fixed
positional default (date 0, cause 1, subject 2, summary 3) plus the row's
detected shift is read, or the field is empty when out of bounds. -/
theorem claim_C1_field_read (hm : HeaderMap) (base : URL) (r : Row) :
    (rowFields hm base r).dateOfJudgment = specRead hm r.tds Role.date 0 ∧
    (rowFields hm base r).causeTitleCaseNo = specRead hm r.tds Role.cause 1 ∧
    (rowFields hm base r).subject = specRead hm r.tds Role.subject 2 ∧
    (rowFields hm base r).judgmentSummary = specRead hm r.tds Role.summary 3 := by
  refine ⟨?_, ?_, ?_, ?_⟩
  · cases h : hm.get Role.date <;>
      simp [rowFields, readBy, specRead, specPosRead, h, Nat.add_comm]
  · cases h : hm.get Role.cause <;>
      simp [rowFields, readBy, specRead, specPosRead, h, Nat.add_comm]
  · cases h : hm.get Role.subject <;>
      simp [rowFields, readBy, specRead, specPosRead, h, Nat.add_comm]
  · cases h : hm.get Role.summary <;>
      simp [rowFields, readBy, specRead, specPosRead, h, Nat.add_comm]

theorem dropWhile_eq_self_of_prefix {α : Type} (p : α → Bool) (x rd : List α)
    (hpre : rd <+: x) (hx : x.dropWhile p = x) : rd.dropWhile p = rd := by
  cases rd with
  | nil => rfl
  | cons a rs =>
    cases x with
    | nil =>
      have := List.prefix_nil.mp hpre
      simp at this
    | cons b xs =>
      have hab : a = b := (List.cons_prefix_cons.mp hpre).1
      have hpb : p b = false := by
        by_contra hb
        have hb' : p b = true := by
          cases hpb : p b
          · exact absurd hpb hb
          · rfl
        rw [List.dropWhile_cons_of_pos hb'] at hx
        have := (List.dropWhile_sublist (l := xs) p).length_le
        have hlen : (List.dropWhile p xs).length = xs.length + 1 := by
          rw [hx]; simp
        omega
      rw [List.dropWhile_cons_of_neg (by simp [hab, hpb])]

theorem trimChars_idem (l : List Char) : trimChars (trimChars l) = trimChars l := by
  unfold trimChars
  have hx : (l.dropWhile (fun c => c.isWhitespace)).dropWhile (fun c => c.isWhitespace)
      = l.dropWhile (fun c => c.isWhitespace) := List.dropWhile_idempotent _ _
  have h1 := dropWhile_eq_self_of_prefix (fun c => c.isWhitespace)
    (l.dropWhile (fun c => c.isWhitespace))
    (List.rdropWhile (fun c => c.isWhitespace) (l.dropWhile (fun c => c.isWhitespace)))
    (List.rdropWhile_prefix _ _) hx
  rw [h1, List.rdropWhile_idempotent]

theorem goTrim_idem (s : String) : goTrim (goTrim s) = goTrim s := by
  unfold goTrim
  rw [trimChars_idem]

theorem utf8Size_of_digit (c : Char) (h9 : c ≤ '9') : c.utf8Size = 1 := by
  have hv : c.val ≤ ('9' : Char).val := h9
  rw [UInt32.le_def, BitVec.le_def] at hv
  have h57 : c.val.toBitVec.toNat ≤ 57 := by simpa using hv
  unfold Char.utf8Size
  rw [if_pos]
  rw [UInt32.le_def, BitVec.le_def]
  have : (UInt32.ofNatCore 0x7F (by decide)).toBitVec.toNat = 127 := rfl
  omega

theorem foldr_utf8Size_of_digits (l : List Char) (h : ∀ c ∈ l, '0' ≤ c ∧ c ≤ '9') :
    l.foldr (fun c n => c.utf8Size + n) 0 = l.length := by
  induction l with
  | nil => rfl
  | cons c rest ih =>
    simp only [List.foldr_cons, List.length_cons]
    rw [utf8Size_of_digit c (h c (by simp)).2, ih (fun x hx => h x (by simp [hx]))]
    omega

theorem goLen_of_digits (s : String) (h : ∀ c ∈ s.data, '0' ≤ c ∧ c ≤ '9') :
    goLen s = s.length :=
  foldr_utf8Size_of_digits s.data h

theorem isNumericShort_iff (s : String) :
    isNumericShort s = true ↔
      (goTrim s ≠ "" ∧ (goTrim s).length ≤ 6 ∧
        ∀ c ∈ (goTrim s).data, '0' ≤ c ∧ c ≤ '9') := by
  unfold isNumericShort
  by_cases he : goTrim s = ""
  · simp [he]
  · by_cases hl : 6 < goLen (goTrim s)
    · rw [if_pos (by simp [he, hl])]
      refine iff_of_false (by simp) ?_
      rintro ⟨_, hlen, hdig⟩
      have := goLen_of_digits (goTrim s) hdig
      omega
    · rw [if_neg (by simp [he, hl])]
      rw [List.all_eq_true]
      constructor
      · intro hall
        have hdig : ∀ c ∈ (goTrim s).data, '0' ≤ c ∧ c ≤ '9' := by
          intro c hc
          have := hall c hc
          simp only [Bool.and_eq_true, decide_eq_true_eq] at this
          exact this
        refine ⟨he, ?_, hdig⟩
        have := goLen_of_digits (goTrim s) hdig
        omega
      · rintro ⟨_, hlen, hdig⟩ c hc
        simp only [Bool.and_eq_true, decide_eq_true_eq]
        exact hdig c hc

/-- C2: the serial-shift is 1 exactly when the row has at least 5 cells and
its first cell's trimmed text is non-empty, at most 6 characters, and all
ASCII digits; a 5-or-more-cell row with first cell `"007"` gets shift 1,
and a 4-cell row gets shift 0 whatever its first cell holds. -/
theorem claim_C2_serial_shift (cols : List String) :
    (rowShift cols = 1 ↔
      (5 ≤ cols.length ∧ goTrim (cols.headD "") ≠ "" ∧
        (goTrim (cols.headD "")).length ≤ 6 ∧
        ∀ c ∈ (goTrim (cols.headD "")).data, '0' ≤ c ∧ c ≤ '9')) ∧
    (5 ≤ cols.length → cols.headD "" = "007" → rowShift cols = 1) ∧
    (cols.length = 4 → rowShift cols = 0) := by
  have hkey : ∀ h0 : String, isNumericShort (goTrim h0) = true ↔
      (goTrim h0 ≠ "" ∧ (goTrim h0).length ≤ 6 ∧
        ∀ c ∈ (goTrim h0).data, '0' ≤ c ∧ c ≤ '9') := by
    intro h0
    rw [isNumericShort_iff, goTrim_idem]
  refine ⟨?_, ?_, ?_⟩
  · unfold rowShift
    by_cases h5 : 5 ≤ cols.length
    · rw [if_pos h5]
      by_cases hn : isNumericShort (goTrim (cols.headD "")) = true
      · rw [if_pos hn]
        exact iff_of_true rfl ⟨h5, (hkey _).mp hn⟩
      · rw [if_neg hn]
        refine iff_of_false (by omega) ?_
        rintro ⟨_, hne, hlen, hdig⟩
        exact hn ((hkey _).mpr ⟨hne, hlen, hdig⟩)
    · rw [if_neg h5]
      refine iff_of_false (by omega) ?_
      rintro ⟨h, _⟩
      exact h5 h
  · intro h5 h007
    unfold rowShift
    rw [if_pos h5, h007, if_pos (by decide)]
  · intro h4
    unfold rowShift
    rw [if_neg (by omega)]

/-- Witness for C2: a 5-cell row with first cell `"007"` has shift 1, and
a 4-cell row with the same first cell has shift 0. -/
theorem claim_C2_witness :
    rowShift ["007", "a", "b", "c", "d"] = 1 ∧ rowShift ["007", "a", "b", "c"] = 0 :=
  ⟨(claim_C2_serial_shift ["007", "a", "b", "c", "d"]).2.1 (by decide) rfl,
   (claim_C2_serial_shift ["007", "a", "b", "c"]).2.2 rfl⟩

theorem keepJudgment_iff (j : Judgment) :
    keepJudgment j = true ↔
      (j.dateOfJudgment ≠ "" ∨ j.causeTitleCaseNo ≠ "" ∨ j.subject ≠ "" ∨
        j.judgmentSummary ≠ "" ∨ j.pdfLink ≠ "") := by
  unfold keepJudgment
  simp [bne_iff_ne]
  tauto

/-- C8: a data row (one with at least one `td` cell) produces a record if
and only if at least one of its five fields is non-empty, and the record
it produces is exactly the row's five fields; an all-empty row yields no
record and no error. -/
theorem claim_C8_retention (hm : HeaderMap) (base : URL) (r : Row)
    (h : 1 ≤ r.tds.length) :
    ((extractRow hm base r).isSome ↔
      ((rowFields hm base r).dateOfJudgment ≠ "" ∨
        (rowFields hm base r).causeTitleCaseNo ≠ "" ∨
        (rowFields hm base r).subject ≠ "" ∨
        (rowFields hm base r).judgmentSummary ≠ "" ∨
        (rowFields hm base r).pdfLink ≠ "")) ∧
    (∀ j, extractRow hm base r = some j → j = rowFields hm base r) := by
  unfold extractRow
  rw [if_neg (by omega)]
  constructor
  · by_cases hk : keepJudgment (rowFields hm base r) = true
    · rw [if_pos hk]
      exact iff_of_true rfl ((keepJudgment_iff _).mp hk)
    · rw [if_neg hk]
      refine iff_of_false (by simp) ?_
      intro hor
      exact hk ((keepJudgment_iff _).mpr hor)
  · intro j hj
    by_cases hk : keepJudgment (rowFields hm base r) = true
    · rw [if_pos hk] at hj
      exact (Option.some_inj.mp hj).symm
    · rw [if_neg hk] at hj
      cases hj

/-- Witness for C8: a one-cell row with text `"x"` has a non-empty date
field, so it produces a record. -/
theorem claim_C8_witness :
    1 ≤ (Row.mk [] ["x"] []).tds.length ∧
    (extractRow HeaderMap.empty ⟨"https", "h", "/p"⟩ ⟨[], ["x"], []⟩).isSome = true :=
  ⟨by decide,
   (claim_C8_retention HeaderMap.empty ⟨"https", "h", "/p"⟩ ⟨[], ["x"], []⟩
      (by decide)).1.mpr (Or.inl (by decide))⟩

theorem HeaderMap.get_set (m : HeaderMap) (r r' : Role) (i : Nat) :
    (m.set r' i).get r = if r = r' then some i else m.get r := by
  cases r' <;> cases r <;> simp [HeaderMap.set, HeaderMap.get]

theorem buildHeaderMapAux_get (r : Role) :
    ∀ (ts : List String) (acc : HeaderMap × Bool) (i : Nat),
      ((buildHeaderMapAux acc i ts).1).get r =
        match specLastRoleIdx r i ts with
        | some j => some j
        | none => acc.1.get r := by
  intro ts
  induction ts with
  | nil =>
    intro acc i
    rfl
  | cons t rest ih =>
    intro acc i
    simp only [buildHeaderMapAux, specLastRoleIdx]
    rw [ih]
    cases hl : specLastRoleIdx r (i + 1) rest with
    | some j => simp
    | none =>
      simp only
      unfold headerStep specCellAssigns
      by_cases ht : goTrim t = ""
      · simp [ht]
      · simp only [ht, if_neg, bne_self_eq_false, bne_iff_ne, ne_eq, not_false_eq_true,
          Bool.true_and]
        cases hr : headerRole (goTrim t).toLower with
        | some r' =>
          simp only [HeaderMap.get_set]
          by_cases hrr : r = r'
          · subst hrr
            simp [ht]
          · have hbeq : (some r' == some r) = false :=
              beq_eq_false_iff_ne.mpr (fun h => hrr (Option.some.inj h).symm)
            simp [hrr, hbeq, ht]
        | none => simp

/-- C10: for every role, the header map records the column index of the
last (highest-index) row-0 cell assigning that role — each later match for
a role overwrites the earlier index. -/
theorem claim_C10_last_match_wins (ths : List String) (r : Role) :
    ((buildHeaderMap ths).1).get r = specLastRoleIdx r 0 ths := by
  unfold buildHeaderMap
  rw [buildHeaderMapAux_get]
  cases specLastRoleIdx r 0 ths with
  | some j => rfl
  | none => cases r <;> rfl

theorem buildHeaderMapAux_hasHeader :
    ∀ (ts : List String) (acc : HeaderMap × Bool) (i : Nat),
      (buildHeaderMapAux acc i ts).2 = (acc.2 || ts.any (fun t => goTrim t != "")) := by
  intro ts
  induction ts with
  | nil =>
    intro acc i
    simp [buildHeaderMapAux]
  | cons t rest ih =>
    intro acc i
    simp only [buildHeaderMapAux, List.any_cons]
    rw [ih]
    unfold headerStep
    by_cases ht : goTrim t = ""
    · simp [ht]
    · cases hr : headerRole (goTrim t).toLower <;>
        simp [ht, hr, bne_iff_ne]

theorem extractRowsFrom_pos (hm : HeaderMap) (hh : Bool) (base : URL) :
    ∀ (rows : List Row) (i : Nat), i ≠ 0 →
      extractRowsFrom hm hh base i rows = rows.filterMap (extractRow hm base) := by
  intro rows
  induction rows with
  | nil =>
    intro i _
    rfl
  | cons r rest ih =>
    intro i hi
    unfold extractRowsFrom
    rw [if_neg (by simp [hi])]
    rw [List.filterMap_cons]
    cases hx : extractRow hm base r <;>
      simp [hx, ih (i + 1) (by omega)]

/-- C7: each row-0 header cell's lower-cased text is tested against the
fixed ordered rule set with the first matching rule winning, so no cell
holds two roles; `hasHeader` holds exactly when some row-0 header cell has
non-empty trimmed text; and row 0 is skipped by the row extractor exactly
when `hasHeader` holds. -/
theorem claim_C7_header_mapping (lower : String) (ths : List String)
    (hm : HeaderMap) (hh : Bool) (base : URL) (rows : List Row) :
    (containsSub lower "date" = true → headerRole lower = some Role.date) ∧
    (containsSub lower "date" = false →
      (containsSub lower "cause" = true ∨ containsSub lower "case" = true ∨
        containsSub lower "title" = true) →
      headerRole lower = some Role.cause) ∧
    (containsSub lower "date" = false → containsSub lower "cause" = false →
      containsSub lower "case" = false → containsSub lower "title" = false →
      containsSub lower "subject" = true → headerRole lower = some Role.subject) ∧
    (containsSub lower "date" = false → containsSub lower "cause" = false →
      containsSub lower "case" = false → containsSub lower "title" = false →
      containsSub lower "subject" = false → containsSub lower "summary" = true →
      headerRole lower = some Role.summary) ∧
    (containsSub lower "date" = false → containsSub lower "cause" = false →
      containsSub lower "case" = false → containsSub lower "title" = false →
      containsSub lower "subject" = false → containsSub lower "summary" = false →
      (containsSub lower "view" = true ∨ containsSub lower "pdf" = true) →
      headerRole lower = some Role.pdf) ∧
    (containsSub lower "date" = false → containsSub lower "cause" = false →
      containsSub lower "case" = false → containsSub lower "title" = false →
      containsSub lower "subject" = false → containsSub lower "summary" = false →
      containsSub lower "view" = false → containsSub lower "pdf" = false →
      headerRole lower = none) ∧
    (∀ r₁ r₂ : Role, headerRole lower = some r₁ → headerRole lower = some r₂ → r₁ = r₂) ∧
    ((buildHeaderMap ths).2 = ths.any (fun t => goTrim t != "")) ∧
    (extractRowsFrom hm hh base 0 rows =
      (if hh then rows.drop 1 else rows).filterMap (extractRow hm base)) := by
  refine ⟨?_, ?_, ?_, ?_, ?_, ?_, ?_, ?_, ?_⟩
  · intro h1
    simp [headerRole, h1]
  · intro h1 h2
    rcases h2 with h2 | h2 | h2 <;> simp [headerRole, h1, h2]
  · intro h1 h2 h3 h4 h5
    simp [headerRole, h1, h2, h3, h4, h5]
  · intro h1 h2 h3 h4 h5 h6
    simp [headerRole, h1, h2, h3, h4, h5, h6]
  · intro h1 h2 h3 h4 h5 h6 h7
    rcases h7 with h7 | h7 <;> simp [headerRole, h1, h2, h3, h4, h5, h6, h7]
  · intro h1 h2 h3 h4 h5 h6 h7 h8
    simp [headerRole, h1, h2, h3, h4, h5, h6, h7, h8]
  · intro r₁ r₂ e₁ e₂
    rw [e₁] at e₂
    exact Option.some.inj e₂
  · unfold buildHeaderMap
    rw [buildHeaderMapAux_hasHeader]
    simp
  · cases rows with
    | nil => cases hh <;> rfl
    | cons r rest =>
      cases hh with
      | false =>
        unfold extractRowsFrom
        rw [if_neg (by simp)]
        simp only [Bool.false_eq_true, if_false, List.filterMap_cons]
        cases hx : extractRow hm base r <;>
          simp [hx, extractRowsFrom_pos hm false base rest 1 (by omega)]
      | true =>
        unfold extractRowsFrom
        rw [if_pos (by simp), if_pos rfl]
        simp only [List.drop_succ_cons, List.drop_zero]
        exact extractRowsFrom_pos hm true base rest 1 (by omega)

/-- Witness for C7: the rule for `date` fires on a concrete header text,
`hasHeader` matches the any-non-empty test on a concrete header row, and a
concrete row list under `hasHeader = true` drops its row 0. -/
theorem claim_C7_witness :
    headerRole "date of judgment" = some Role.date ∧
    (buildHeaderMap ["S.No", "Date"]).2 = ["S.No", "Date"].any (fun t => goTrim t != "") ∧
    extractRowsFrom HeaderMap.empty true ⟨"https", "h", "/p"⟩ 0 [⟨[], ["x"], []⟩]
      = (if true then [Row.mk [] ["x"] []].drop 1 else [Row.mk [] ["x"] []]).filterMap
          (extractRow HeaderMap.empty ⟨"https", "h", "/p"⟩) :=
  ⟨(claim_C7_header_mapping "date of judgment" [] HeaderMap.empty true
      ⟨"https", "h", "/p"⟩ []).1 (by decide),
   (claim_C7_header_mapping "" ["S.No", "Date"] HeaderMap.empty true
      ⟨"https", "h", "/p"⟩ []).2.2.2.2.2.2.2.1,
   (claim_C7_header_mapping "" [] HeaderMap.empty true
      ⟨"https", "h", "/p"⟩ [⟨[], ["x"], []⟩]).2.2.2.2.2.2.2.2⟩

theorem containsFrom_iff (needle : List Char) :
    ∀ hay, containsFrom needle hay = true ↔ needle <:+: hay := by
  intro hay
  induction hay with
  | nil =>
    simp [containsFrom, List.isEmpty_iff, List.infix_nil]
  | cons c rest ih =>
    simp only [containsFrom, Bool.or_eq_true, ih, List.infix_cons_iff,
      List.isPrefixOf_iff_prefix]

theorem containsSub_spec (s sub : String) :
    containsSub s sub = true ↔ sub.data <:+: s.data := by
  unfold containsSub
  exact containsFrom_iff sub.data s.data

theorem contains_viewPdf_of_slash (s : String) :
    containsSub s "/view-pdf/" = true → containsSub s "view-pdf" = true := by
  intro h
  rw [containsSub_spec] at h ⊢
  have hsub : ("view-pdf".data) <:+: ("/view-pdf/".data) := ⟨['/'], ['/'], by decide⟩
  exact hsub.trans h

theorem pdfHrefMatch_eq_spec (href : String) :
    pdfHrefMatch href = specPdfTest href := by
  unfold pdfHrefMatch specPdfTest
  by_cases hv : containsSub ((goTrim href).toLower) "view-pdf" = true
  · simp [hv]
  · have hv' : containsSub ((goTrim href).toLower) "view-pdf" = false :=
      Bool.eq_false_iff.mpr hv
    have hs : containsSub ((goTrim href).toLower) "/view-pdf/" = false := by
      cases hsl : containsSub ((goTrim href).toLower) "/view-pdf/" with
      | false => rfl
      | true => exact absurd (contains_viewPdf_of_slash _ hsl) hv
    simp [hv', hs]

theorem findPDF_eq_spec (base : URL) (anchors : List (Option String)) :
    findPDF base anchors =
      match specFirstPdfAnchor anchors with
      | some h => resolve base h
      | none => "" := by
  induction anchors with
  | nil => rfl
  | cons a rest ih =>
    cases a with
    | none =>
      simp only [findPDF, specFirstPdfAnchor, List.findSome?_cons]
      exact ih
    | some href =>
      simp only [findPDF, specFirstPdfAnchor, List.findSome?_cons, pdfHrefMatch_eq_spec]
      by_cases hm : specPdfTest href = true
      · simp [hm]
      · have hm' : specPdfTest href = false := Bool.eq_false_iff.mpr hm
        simp only [hm', Bool.false_eq_true, if_false]
        exact ih

/-- C4: the PDF field is the resolution of the first anchor in document
order whose trimmed, lower-cased href ends with `.pdf` or contains
`view-pdf`, later anchors being irrelevant; with no matching anchor the
field is empty and no error arises; a (trimmed) absolute href is returned
unchanged, a relative one is resolved against the page's base URL. -/
theorem claim_C4_pdf_link (base : URL) (anchors : List (Option String)) (href : String) :
    (findPDF base anchors =
      match specFirstPdfAnchor anchors with
      | some h => resolve base h
      | none => "") ∧
    (specFirstPdfAnchor anchors = none → findPDF base anchors = "") ∧
    (goTrim href = href → href ≠ "" → hasScheme href = true →
      resolve base href = href) ∧
    (goTrim href ≠ "" → parseFails (goTrim href) = false → hasScheme (goTrim href) = false →
      resolve base href = resolveReference base (goTrim href)) := by
  refine ⟨findPDF_eq_spec base anchors, ?_, ?_, ?_⟩
  · intro hn
    rw [findPDF_eq_spec base anchors, hn]
  · intro htr hne habs
    unfold resolve
    rw [htr, if_neg hne]
    by_cases hp : parseFails href = true
    · rw [if_pos hp]
    · rw [if_neg hp, if_pos habs]
  · intro hne hp habs
    unfold resolve
    rw [if_neg hne, if_neg (by simp [hp]), if_neg (by simp [habs])]

/-- Witness for C4: a concrete absolute href is returned unchanged, a
concrete rooted href resolves against the base, and the first matching
anchor of a concrete row wins while trailing anchors are ignored. -/
theorem claim_C4_witness :
    resolve ⟨"https", "sci.gov.in", "/page"⟩ "https://x.gov/a.pdf" = "https://x.gov/a.pdf" ∧
    resolve ⟨"https", "sci.gov.in", "/page"⟩ "/docs/a.pdf"
      = resolveReference ⟨"https", "sci.gov.in", "/page"⟩ "/docs/a.pdf" ∧
    findPDF ⟨"https", "sci.gov.in", "/page"⟩
        [some "x.png", none, some "/docs/a.pdf", some "ignored.pdf"]
      = match specFirstPdfAnchor [some "x.png", none, some "/docs/a.pdf", some "ignored.pdf"] with
        | some h => resolve ⟨"https", "sci.gov.in", "/page"⟩ h
        | none => "" :=
  ⟨(claim_C4_pdf_link ⟨"https", "sci.gov.in", "/page"⟩ [] "https://x.gov/a.pdf").2.2.1
      (by decide) (by decide) (by decide),
   by
     have h := (claim_C4_pdf_link ⟨"https", "sci.gov.in", "/page"⟩ [] "/docs/a.pdf").2.2.2
       (by decide) (by decide) (by decide)
     rw [show goTrim "/docs/a.pdf" = "/docs/a.pdf" from by decide] at h
     exact h,
   (claim_C4_pdf_link ⟨"https", "sci.gov.in", "/page"⟩
      [some "x.png", none, some "/docs/a.pdf", some "ignored.pdf"] "").1⟩

end SciScraper


